import Mathlib

/-!
Verification development for the MODIS HDF-to-GeoTIFF converter
(scripts/converter.py and scripts/skill.py).

The Python sources are shallowly embedded as executable Lean definitions:

* Python floats are modelled as rationals.  Every numeric statement proved
  here is insensitive to the difference at the stated precision.
* The regular-expression searches of the source are modelled concretely for
  the exact patterns that appear in the code; for these patterns the greedy
  character classes are forced, so the leftmost-match scan below is exactly
  the behaviour of the search the source performs.  The digit class is
  modelled as the ASCII digits.
* The collaborating libraries (archive reader, raster writer, os module)
  are modelled at their interface boundary: an opened archive is a value
  holding the global attribute mapping and the ordered dataset list, the
  filesystem is an association list from paths to file entries, and the
  raster writer produces a raster value that records exactly the fields the
  source sets on it.  Pixel payloads are not modelled: only the shape of a
  grid ever participates in a control decision in the source.
* Statements that the source reaches by raising and catching exceptions are
  modelled with Option and Except in the places where the source catches
  them.
-/

set_option autoImplicit false

namespace HdfGeotiff

/-! ### Generic character-list utilities -/

/-- Does the second list start with the first one? -/
def listStartsWith : List Char → List Char → Bool
  | [], _ => true
  | _ :: _, [] => false
  | c :: cs, d :: ds => c = d && listStartsWith cs ds

/-- Does the second list contain the first as a contiguous sublist?
This is the semantics of the Python substring test. -/
def listContainsSub (pat : List Char) : List Char → Bool
  | [] => listStartsWith pat []
  | c :: rest => listStartsWith pat (c :: rest) || listContainsSub pat rest

/-- Python substring containment for strings. -/
def strContains (s pat : String) : Bool := listContainsSub pat.data s.data

/-- ASCII lowering of a string, the use the source makes of str.lower. -/
def strLower (s : String) : String := String.mk (s.data.map Char.toLower)

/-- Python str.split on a dot: the result is always non-empty. -/
def splitOnDot (s : List Char) : List (List Char) :=
  match s with
  | [] => [[]]
  | c :: rest =>
    let r := splitOnDot rest
    if c = '.' then [] :: r
    else
      match r with
      | h :: t => (c :: h) :: t
      | [] => [[c]]

/-- First dot-separated component of a string (split always has a head). -/
def headPart (s : String) : String := String.mk ((splitOnDot s.data).headD [])

/-- posix os.path.basename: everything after the last slash. -/
def baseName (s : String) : String :=
  String.mk ((s.data.reverse.takeWhile (· ≠ '/')).reverse)

/-- posix os.path.dirname: the prefix up to the last slash, with trailing
slashes stripped unless the head is all slashes. -/
def dirname (s : String) : String :=
  let head := (s.data.reverse.dropWhile (· ≠ '/')).reverse
  if head = [] ∨ head.all (· = '/') then String.mk head
  else String.mk ((head.reverse.dropWhile (· = '/')).reverse)

/-- posix os.path.join of two components as the source uses it. -/
def pathJoin (a b : String) : String :=
  match b.data with
  | '/' :: _ => b
  | _ =>
    if a = "" ∨ a.data.getLast? = some '/' then a ++ b
    else a ++ "/" ++ b

/-! ### Leftmost regular-expression search, for the patterns of the source -/

/-- Leftmost search: try an anchored matcher at every start position, the
earliest success wins.  This is what re.search does for the deterministic
patterns used by the source. -/
def searchFrom {α : Type} (att : List Char → Option α) : List Char → Option α
  | [] => att []
  | c :: rest =>
    match att (c :: rest) with
    | some r => some r
    | none => searchFrom att rest

/-- Consume an exact literal from the head of the input. -/
def dropLit : List Char → List Char → Option (List Char)
  | [], s => some s
  | _ :: _, [] => none
  | c :: cs, d :: ds => if c = d then dropLit cs ds else none

/-- Anchored tail of the two-group coordinate pattern: after the literal
part, one-or-more characters other than a comma, a comma, one-or-more
characters other than a closing parenthesis, a closing parenthesis.  Both
character classes are forced, so the greedy scan is exact. -/
def matchCoordGroups (s : List Char) : Option (List Char × List Char) :=
  let g1 := s.takeWhile (· ≠ ',')
  let r1 := s.dropWhile (· ≠ ',')
  if g1 = [] then none
  else
    match r1 with
    | ',' :: r2 =>
      let g2 := r2.takeWhile (· ≠ ')')
      let r3 := r2.dropWhile (· ≠ ')')
      if g2 = [] then none
      else
        match r3 with
        | ')' :: _ => some (g1, g2)
        | _ => none
    | _ => none

/-- Anchored coordinate pattern including its literal key. -/
def matchCoordAt (key : List Char) (s : List Char) : Option (List Char × List Char) :=
  (dropLit key s).bind matchCoordGroups

/-- The search for a pattern of the form KEY=\(([^,]+),([^)]+)\). -/
def searchCoord (key : List Char) (s : List Char) : Option (List Char × List Char) :=
  searchFrom (matchCoordAt key) s

/-- Anchored digit group: after the literal, one-or-more ASCII digits. -/
def matchDigitsAt (key : List Char) (s : List Char) : Option (List Char) :=
  (dropLit key s).bind fun r =>
    let ds := r.takeWhile Char.isDigit
    if ds = [] then none else some ds

/-- The search for a pattern of the form KEY=(\d+). -/
def searchDim (key : List Char) (s : List Char) : Option (List Char) :=
  searchFrom (matchDigitsAt key) s

/-- Anchored tile pattern h\d+v\d+ of analyze_hdf_file. -/
def matchTileAt (s : List Char) : Option (List Char) :=
  match s with
  | 'h' :: r =>
    let d1 := r.takeWhile Char.isDigit
    let r1 := r.dropWhile Char.isDigit
    if d1 = [] then none
    else
      match r1 with
      | 'v' :: r2 =>
        let d2 := r2.takeWhile Char.isDigit
        if d2 = [] then none else some ('h' :: (d1 ++ 'v' :: d2))
      | _ => none
  | _ => none

/-- The literal head of the UpperLeftPointMtrs pattern. -/
def ulKey : List Char := "UpperLeftPointMtrs=(".data

/-- The literal head of the LowerRightMtrs pattern. -/
def lrKey : List Char := "LowerRightMtrs=(".data

/-- The literal head of the XDim pattern. -/
def xKey : List Char := "XDim=".data

/-- The literal head of the YDim pattern. -/
def yKey : List Char := "YDim=".data

/-! ### Numeric parsing, modelling the Python int and float constructors -/

/-- Value of an ASCII digit string. -/
def digitsToNat (ds : List Char) : Nat :=
  ds.foldl (fun a c => a * 10 + (c.toNat - 48)) 0

/-- Value of an ASCII digit string as a rational. -/
def digitsVal (ds : List Char) : ℚ := (digitsToNat ds : ℚ)

/-- Signed all-digit exponent tail of a float literal; the whole input must
be consumed. -/
def parseExpDigits (s : List Char) : Option ℤ :=
  match s with
  | '+' :: r =>
    if r ≠ [] ∧ r.all Char.isDigit then some (digitsToNat r) else none
  | '-' :: r =>
    if r ≠ [] ∧ r.all Char.isDigit then some (-(digitsToNat r : ℤ)) else none
  | r =>
    if r ≠ [] ∧ r.all Char.isDigit then some (digitsToNat r) else none

/-- Unsigned mantissa with optional fraction and optional exponent; the
whole input must be consumed.  This is the decimal core of the grammar the
Python float constructor accepts (the special words, underscore separators
and non-ASCII digits it also accepts are not modelled; no statement below
depends on them). -/
def parseMantissa (s : List Char) : Option ℚ :=
  let ip := s.takeWhile Char.isDigit
  let r1 := s.dropWhile Char.isDigit
  match r1 with
  | [] => if ip = [] then none else some (digitsVal ip)
  | '.' :: r2 =>
    let fp := r2.takeWhile Char.isDigit
    let r3 := r2.dropWhile Char.isDigit
    if ip = [] ∧ fp = [] then none
    else
      let m := digitsVal ip + digitsVal fp / (10 : ℚ) ^ fp.length
      match r3 with
      | [] => some m
      | 'e' :: r4 => (parseExpDigits r4).map fun e => m * (10 : ℚ) ^ e
      | 'E' :: r4 => (parseExpDigits r4).map fun e => m * (10 : ℚ) ^ e
      | _ => none
  | 'e' :: r4 =>
    if ip = [] then none
    else (parseExpDigits r4).map fun e => digitsVal ip * (10 : ℚ) ^ e
  | 'E' :: r4 =>
    if ip = [] then none
    else (parseExpDigits r4).map fun e => digitsVal ip * (10 : ℚ) ^ e
  | _ => none

/-- The Python float constructor on a captured group: optional surrounding
whitespace, optional sign, decimal mantissa.  Returns none where the
constructor raises ValueError. -/
def parseFloat (s : List Char) : Option ℚ :=
  let t := ((s.dropWhile Char.isWhitespace).reverse.dropWhile Char.isWhitespace).reverse
  match t with
  | '+' :: r => parseMantissa r
  | '-' :: r => (parseMantissa r).map Neg.neg
  | r => parseMantissa r

/-! ### Filename date parsing (parse_modis_date) -/

/-- Gregorian leap-year rule, the one the datetime library applies. -/
def isLeap (y : Nat) : Bool := (y % 4 = 0 ∧ y % 100 ≠ 0) ∨ y % 400 = 0

/-- Number of days of a year. -/
def daysInYear (y : Nat) : Nat := if isLeap y then 366 else 365

/-- Month lengths of a year. -/
def monthLengths (y : Nat) : List Nat :=
  [31, if isLeap y then 29 else 28, 31, 30, 31, 30, 31, 31, 30, 31, 30, 31]

/-- Resolve a zero-based day offset against a starting year, rolling into
later years; none models the OverflowError past year 9999.  The offsets of
the source are below 999, so the fuel of 4 is never exhausted by a
resolvable input. -/
def resolveYear : Nat → Nat → Nat → Option (Nat × Nat)
  | 0, _, _ => none
  | fuel + 1, y, o =>
    if o < daysInYear y then some (y, o)
    else if 9999 ≤ y then none
    else resolveYear fuel (y + 1) (o - daysInYear y)

/-- One-based month and day from a zero-based offset into a year. -/
def monthFromOffset : List Nat → Nat → Nat → Nat × Nat
  | [], m, o => (m, o + 1)
  | len :: rest, m, o =>
    if o < len then (m, o + 1) else monthFromOffset rest (m + 1) (o - len)

/-- Decimal digits of a natural number. -/
def natToStr (n : Nat) : String := String.mk (Nat.toDigits 10 n)

/-- Left-pad with zeros to a width. -/
def padZeros (k : Nat) (s : String) : String :=
  String.mk (List.replicate (k - s.data.length) '0') ++ s

/-- The YYYYMMDD rendering of the date that is day-of-year doy of a year,
as the datetime arithmetic of the source produces it.  A zero day of year
steps back one day; none models the ValueError and OverflowError paths the
source catches. -/
def formatModisDate (year doy : Nat) : Option String :=
  if year = 0 then none
  else if doy = 0 then
    if year = 1 then none
    else some (padZeros 4 (natToStr (year - 1)) ++ "1231")
  else
    match resolveYear 4 year (doy - 1) with
    | none => none
    | some (y, o) =>
      let md := monthFromOffset (monthLengths y) 1 o
      some (padZeros 4 (natToStr y) ++ padZeros 2 (natToStr md.1) ++ padZeros 2 (natToStr md.2))

/-- parse_modis_date of converter.py: the second dot-separated component of
the filename must be a capital A followed by seven digits; the date is then
January first of the year plus day-of-year minus one days. -/
def parse_modis_date (base : String) : Option String :=
  match splitOnDot base.data with
  | _ :: datePart :: _ =>
    match datePart with
    | 'A' :: rest =>
      if rest.length = 7 ∧ rest.all Char.isDigit then
        formatModisDate (digitsToNat (rest.take 4)) (digitsToNat (rest.drop 4))
      else none
    | _ => none
  | _ => none

/-! ### The georeferencing bundle (get_modis_projection_info) -/

/-- A six-entry affine geotransform. -/
abbrev GT := ℚ × ℚ × ℚ × ℚ × ℚ × ℚ

/-- The fixed sinusoidal spatial reference the source always binds.  The
round trip through the spatial-reference library is modelled as the
identity on this text. -/
def sinusoidalWkt : String :=
  "PROJCS[\"unnamed\",GEOGCS[\"Unknown datum based upon the custom spheroid\",DATUM[\"Not specified (based on custom spheroid)\",SPHEROID[\"Custom spheroid\",6371007.181,0]],PRIMEM[\"Greenwich\",0],UNIT[\"degree\",0.0174532925199433,AUTHORITY[\"EPSG\",\"9122\"]]],PROJECTION[\"Sinusoidal\"],PARAMETER[\"longitude_of_center\",0],PARAMETER[\"false_easting\",0],PARAMETER[\"false_northing\",0],UNIT[\"metre\",1,AUTHORITY[\"EPSG\",\"9001\"]],AXIS[\"Easting\",EAST],AXIS[\"Northing\",NORTH]]"

/-- The per-archive georeferencing bundle of get_modis_projection_info: on
the successful path every field is set. -/
structure ProjInfo where
  geotransform : GT
  resolution : ℚ
  wkt : String
deriving DecidableEq, Repr

/-- The projection-extraction core of get_modis_projection_info, a function
of the StructMetadata.0 text: search the four patterns, convert the
captured groups, build resolution and geotransform.  A failed search, a
group the float constructor rejects, or a zero dimension (a ZeroDivisionError
in the source, caught by its handler) all yield none. -/
def extractProjection (meta : List Char) : Option ProjInfo :=
  match searchCoord ulKey meta, searchCoord lrKey meta,
        searchDim xKey meta, searchDim yKey meta with
  | some (g1, g2), some (h1, h2), some xs, some ys =>
    match parseFloat g1, parseFloat g2, parseFloat h1, parseFloat h2 with
    | some ulx, some uly, some lrx, some _lry =>
      let xdim := digitsToNat xs
      let ydim := digitsToNat ys
      if xdim = 0 ∨ ydim = 0 then none
      else
        -- The source also computes a y resolution here; its only effect is
        -- the division by ydim, covered by the zero test above.
        let res := |(lrx - ulx) / (xdim : ℚ)|
        some { geotransform := (ulx, res, 0, uly, 0, -res),
               resolution := res,
               wkt := sinusoidalWkt }
    | _, _, _, _ => none
  | _, _, _, _ => none

/-! ### The data model of the collaborating archive reader and filesystem -/

/-- One named dataset of an archive: its name, the shape of its grid, its
attribute mapping, and whether reading it raises the per-dataset failure
the source catches and skips. -/
structure HDataset where
  name : String
  shape : List Nat
  attrs : List (String × ℚ)
  readFails : Bool
deriving DecidableEq, Repr

/-- An opened archive: the global attribute mapping and the ordered list of
datasets. -/
structure HArchive where
  globalAttrs : List (String × String)
  datasets : List HDataset
deriving DecidableEq, Repr

/-- Association-list lookup with a default, the dict get of the source. -/
def getAttr (attrs : List (String × String)) (key dflt : String) : String :=
  (((attrs.find? fun kv => kv.1 == key).map (·.2)).getD dflt)

/-- The StructMetadata.0 text of an archive, defaulting to the empty
string when the attribute is absent, exactly as the source reads it. -/
def structMetaOf (a : HArchive) : List Char :=
  (getAttr a.globalAttrs "StructMetadata.0" "").data

/-- get_modis_projection_info: the argument is the result of opening the
archive (none when the open raises, which the handler of the source turns
into no bundle). -/
def get_modis_projection_info (arch : Option HArchive) : Option ProjInfo :=
  arch.bind fun a => extractProjection (structMetaOf a)

/-- An output raster as the raster-writer collaborator records it: the
fields are exactly the ones the source sets.  Pixel payloads are
abstracted to the dataWritten flag. -/
structure Raster where
  xSize : Nat
  ySize : Nat
  geotransform : Option GT
  projection : Option String
  dataWritten : Bool
  noData : Option ℚ
  metadata : List (String × ℚ)
deriving DecidableEq, Repr

/-- A file on disk: the input archive (with the outcome of opening it), an
opaque pre-existing file, or a written raster. -/
inductive FileEntry
  | hdfEntry (arch : Option HArchive)
  | plainFile
  | rasterFile (r : Raster)
deriving DecidableEq, Repr

/-- The filesystem and directory state. -/
structure World where
  files : List (String × FileEntry)
  dirs : List String
deriving DecidableEq, Repr

/-- The os behaviour environment: paths where os.remove raises (for
example a permission failure), which escapes the per-dataset handler of the
source. -/
structure Env where
  removeFails : List String
deriving DecidableEq, Repr

/-- Look a path up on disk. -/
def getFile (w : World) (p : String) : Option FileEntry :=
  (w.files.find? fun kv => kv.1 == p).map (·.2)

/-- os.path.exists. -/
def pathExists (w : World) (p : String) : Bool := (getFile w p).isSome

/-- Store a file at a path, replacing any previous entry. -/
def setFile (w : World) (p : String) (e : FileEntry) : World :=
  { w with files := (p, e) :: w.files.filter fun kv => kv.1 != p }

/-- os.remove. -/
def removeFile (w : World) (p : String) : World :=
  { w with files := w.files.filter fun kv => kv.1 != p }

/-- os.makedirs with exist_ok. -/
def makedirs (w : World) (d : String) : World :=
  { w with dirs := if d ∈ w.dirs then w.dirs else d :: w.dirs }

/-- Opening the archive at a path: none both when the path is missing and
when the file is present but the reader raises. -/
def openHdf (w : World) (p : String) : Option HArchive :=
  match getFile w p with
  | some (.hdfEntry a) => a
  | _ => none

/-! ### analyze_hdf_file and the analyze command surface -/

/-- Outcome of the resolution block of analyze_hdf_file: a value, the
unknown marker, or an exception escaping to the outer handler. -/
inductive ResField
  | notSet
  | unknownRes
  | metersRes (q : ℚ)
deriving DecidableEq, Repr

/-- Outcome wrapper distinguishing a computed resolution field from a
raised conversion error. -/
inductive ResOutcome
  | resOk (r : ResField)
  | resRaise
deriving DecidableEq, Repr

/-- The resolution block of analyze_hdf_file: three searches; with all
three found, the first group of each coordinate is converted and the
resolution derived, a conversion failure or zero dimension raising out of
the block; with any search missing the field is the unknown marker.  The
two-decimal string rendering of the source is abstracted to the exact
value. -/
def analyzeResolution (meta : List Char) : ResOutcome :=
  match searchCoord ulKey meta, searchCoord lrKey meta, searchDim xKey meta with
  | some (g1, _), some (h1, _), some xs =>
    match parseFloat g1, parseFloat h1 with
    | some ulx, some lrx =>
      let xd := digitsToNat xs
      if xd = 0 then .resRaise
      else .resOk (.metersRes |(lrx - ulx) / (xd : ℚ)|)
    | _, _ => .resRaise
  | _, _, _ => .resOk .unknownRes

/-- One reported data field of the analysis. -/
structure DataField where
  name : String
  shape : List Nat
deriving DecidableEq, Repr

/-- The report analyze_hdf_file returns; the numeric grid summaries and the
file size are not modelled (no statement refers to them). -/
structure FileInfo where
  path : String
  basename : String
  resolution : ResField
  dataFields : List DataField
  date : Option String
  productType : String
  tile : Option String
  totalDatasets : Option Nat
deriving DecidableEq, Repr

/-- analyze_hdf_file: the defaults are built first; a failed open — or an
exception later in the block — returns the report as filled so far, never
an error value. -/
def analyze_hdf_file (w : World) (path : String) : FileInfo :=
  let base := baseName path
  let info0 : FileInfo :=
    { path := path, basename := base, resolution := .notSet, dataFields := [],
      date := parse_modis_date base, productType := headPart base,
      tile := none, totalDatasets := none }
  match openHdf w path with
  | none => info0
  | some arch =>
    let info1 := { info0 with tile := (searchFrom matchTileAt base.data).map String.mk }
    match analyzeResolution (structMetaOf arch) with
    | .resRaise => info1
    | .resOk res =>
      let fields := arch.datasets.filterMap fun d =>
        if d.readFails then none else some { name := d.name, shape := d.shape : DataField }
      { info1 with resolution := res, dataFields := fields,
                   totalDatasets := some arch.datasets.length }

/-- The status discriminator of the command surface. -/
inductive Status
  | success
  | error
deriving DecidableEq, Repr

/-- analyze of skill.py: a missing path is the error branch; any existing
path reaches analyze_hdf_file, whose report is always returned with the
success status. -/
def skill_analyze (w : World) (path : String) : Status × Option FileInfo :=
  if pathExists w path then (.success, some (analyze_hdf_file w path))
  else (.error, none)

/-! ### Dataset selection and the per-dataset materializer loop -/

/-- The selection predicate of hdf_to_geotiff_sinusoidal: with no request,
names containing the NDVI substring; with a request, membership in it. -/
def selPred (req : Option (List String)) (name : String) : Bool :=
  match req with
  | none => strContains name "NDVI"
  | some r => decide (name ∈ r)

/-- The Dataset Selector: the available names in archive order, filtered by
the selection predicate. -/
def selectDatasets (names : List String) (req : Option (List String)) : List String :=
  names.filter (selPred req)

/-- Sanitized dataset name: space, slash and backslash become
underscores. -/
def sanitizeName (n : String) : String :=
  String.mk (n.data.map fun c => if c = ' ' ∨ c = '/' ∨ c = '\\' then '_' else c)

/-- The output filename of a dataset: product type and date stamp when a
date was parsed, else the first two dot components of the archive name;
none models the IndexError a dotless archive name raises on the dateless
branch (it escapes the per-dataset handler). -/
def outputFilename (base : String) (dateStr : Option String) (name : String) : Option String :=
  match dateStr with
  | some d => some (headPart base ++ "_" ++ d ++ "_" ++ sanitizeName name ++ ".tif")
  | none =>
    match splitOnDot base.data with
    | p0 :: p1 :: _ =>
      some (String.mk p0 ++ "_" ++ String.mk p1 ++ "_" ++ sanitizeName name ++ ".tif")
    | _ => none

/-- The no-data policy of the materializer: vegetation-index names get the
fixed constant; otherwise the first attribute whose lowered key contains a
no-data marker supplies the value; otherwise none is set. -/
def noDataKeyHit (k : String) : Bool :=
  strContains (strLower k) "no data" || strContains (strLower k) "nodata"

/-- The no-data value assigned to the band of a dataset. -/
def noDataFor (name : String) (attrs : List (String × ℚ)) : Option ℚ :=
  if strContains name "NDVI" || strContains name "EVI" then some (-3000)
  else (attrs.find? fun kv => noDataKeyHit kv.1).map (·.2)

/-- The per-archive constants of the conversion loop. -/
structure ConvCfg where
  outputDir : String
  hdfBasename : String
  dateStr : Option String
  projInfo : Option ProjInfo
deriving DecidableEq, Repr

/-- The guarded body of the per-dataset loop (everything its inner handler
covers): a failing read or a grid that is not exactly two-dimensional skips
the dataset; otherwise the raster is created on disk at once, and only then
is the bundle consulted — with no bundle the dataset is skipped leaving the
fresh raster untouched; with a bundle every field is applied and the path
succeeds. -/
def processBody (cfg : ConvCfg) (w : World) (d : HDataset) (path : String) :
    World × Option String :=
  if d.readFails then (w, none)
  else
    match d.shape with
    | [ySz, xSz] =>
      let r0 : Raster :=
        { xSize := xSz, ySize := ySz, geotransform := none, projection := none,
          dataWritten := false, noData := none, metadata := [] }
      let w1 := setFile w path (.rasterFile r0)
      match cfg.projInfo with
      | none => (w1, none)
      | some pi =>
        let r1 : Raster :=
          { r0 with geotransform := some pi.geotransform,
                    projection := some pi.wkt,
                    dataWritten := true,
                    noData := noDataFor d.name d.attrs,
                    metadata := d.attrs }
        (setFile w1 path (.rasterFile r1), some path)
    | _ => (w, none)

/-- One iteration of the per-dataset loop: build the output name (a raised
IndexError aborts the archive), remove an existing file at the output path
unconditionally (a raised removal error aborts the archive; both removal
and name building run before the inner handler), then the guarded body. -/
def processOne (env : Env) (cfg : ConvCfg) (w : World) (d : HDataset) :
    Except World (World × Option String) :=
  match outputFilename cfg.hdfBasename cfg.dateStr d.name with
  | none => .error w
  | some fname =>
    if pathExists w (pathJoin cfg.outputDir fname) then
      if pathJoin cfg.outputDir fname ∈ env.removeFails then .error w
      else
        .ok (processBody cfg (removeFile w (pathJoin cfg.outputDir fname)) d
              (pathJoin cfg.outputDir fname))
    else .ok (processBody cfg w d (pathJoin cfg.outputDir fname))

/-- The whole per-dataset loop, collecting created paths in order; an
escaping exception carries the filesystem state at the raise. -/
def processDatasets (env : Env) (cfg : ConvCfg) (w : World) :
    List HDataset → Except World (World × List String)
  | [] => .ok (w, [])
  | d :: rest =>
    match processOne env cfg w d with
    | .error w1 => .error w1
    | .ok (w1, out) =>
      match processDatasets env cfg w1 rest with
      | .error w2 => .error w2
      | .ok (w2, outs) => .ok (w2, out.toList ++ outs)

/-- How the archive handle of the conversion ended up. -/
inductive HandleState
  | notOpened
  | closed
  | leaked
deriving DecidableEq, Repr

/-- The full outcome of one conversion call. -/
structure ConvResult where
  world : World
  outputs : List String
  handle : HandleState
deriving DecidableEq, Repr

/-- hdf_to_geotiff_sinusoidal of converter.py: missing input returns the
empty list; the output directory defaults to the directory of the input
and is created; a failed open is caught by the outer handler and returns
the empty list; otherwise the bundle is extracted, the datasets selected
and processed in archive order, and the handle closed — unless an exception
escapes the loop, in which case the outer handler returns the empty list
without closing the handle. -/
def hdf_to_geotiff_sinusoidal (env : Env) (w : World) (hdfFile : String)
    (outputDir : Option String) (datasets : Option (List String)) : ConvResult :=
  if pathExists w hdfFile then
    let outDir := outputDir.getD (dirname hdfFile)
    let w0 := makedirs w outDir
    let base := baseName hdfFile
    match openHdf w0 hdfFile with
    | none => { world := w0, outputs := [], handle := .notOpened }
    | some arch =>
      let cfg : ConvCfg :=
        { outputDir := outDir, hdfBasename := base,
          dateStr := parse_modis_date base,
          projInfo := get_modis_projection_info (some arch) }
      let sel := arch.datasets.filter fun d => selPred datasets d.name
      match processDatasets env cfg w0 sel with
      | .error w1 => { world := w1, outputs := [], handle := .leaked }
      | .ok (w1, outs) => { world := w1, outputs := outs, handle := .closed }
  else { world := w, outputs := [], handle := .notOpened }

/-! ### The convert command surface and the request dispatcher -/

/-- convert of skill.py: missing input is the error branch; otherwise the
output directory is created, the conversion primitive runs, and an empty
created-file list is reported as the error status. -/
def skill_convert (env : Env) (w : World) (input outDir : String)
    (datasets : Option (List String)) : Status × World × List String :=
  if pathExists w input then
    let w1 := makedirs w outDir
    let r := hdf_to_geotiff_sinusoidal env w1 input (some outDir) datasets
    if r.outputs = [] then (.error, r.world, []) else (.success, r.world, r.outputs)
  else (.error, w, [])

/-- A conversion request of the dispatcher. -/
structure Request where
  inputFile : Option String
  outputDir : Option String
  datasets : Option (List String)
  analyzeOnly : Bool
deriving DecidableEq, Repr

/-- The outcome of the dispatcher. -/
structure HandleResult where
  status : Status
  world : World
  files : List String
deriving DecidableEq, Repr

/-- handle_hdf_to_geotiff_conversion of skill.py: a missing input file is
an error; analyze-only requests dispatch to analyze; a missing or empty
output directory falls back to the directory of the input. -/
def handle_hdf_to_geotiff_conversion (env : Env) (w : World) (req : Request) :
    HandleResult :=
  match req.inputFile with
  | none => { status := .error, world := w, files := [] }
  | some input =>
    if req.analyzeOnly then
      { status := (skill_analyze w input).1, world := w, files := [] }
    else
      let outDir :=
        match req.outputDir with
        | none => dirname input
        | some s => if s = "" then dirname input else s
      let r := skill_convert env w input outDir req.datasets
      { status := r.1, world := r.2.1, files := r.2.2 }

/-! ### Helper lemmas about the filesystem model -/

theorem find_none_in_filtered (l : List (String × FileEntry)) (p : String) :
    (l.filter fun kv => kv.1 != p).find? (fun kv => kv.1 == p) = none := by
  induction l with
  | nil => rfl
  | cons h t ih =>
    by_cases hp : h.1 = p
    · simp [List.filter_cons, hp, ih]
    · simp only [List.filter_cons]
      have : (h.1 != p) = true := by simp [bne, hp]
      simp only [this, if_pos]
      rw [List.find?]
      have : (h.1 == p) = false := by simp [hp]
      simp [this, ih]

theorem getFile_removeFile_self (w : World) (p : String) :
    getFile (removeFile w p) p = none := by
  simp [getFile, removeFile, find_none_in_filtered]

theorem pathExists_removeFile_self (w : World) (p : String) :
    pathExists (removeFile w p) p = false := by
  simp [pathExists, getFile_removeFile_self]

theorem getFile_setFile_self (w : World) (p : String) (e : FileEntry) :
    getFile (setFile w p e) p = some e := by
  simp [getFile, setFile, List.find?]

theorem makedirs_files (w : World) (d : String) : (makedirs w d).files = w.files := by
  unfold makedirs
  split <;> rfl

theorem getFile_makedirs (w : World) (d p : String) :
    getFile (makedirs w d) p = getFile w p := by
  simp [getFile, makedirs_files]

theorem pathExists_makedirs (w : World) (d p : String) :
    pathExists (makedirs w d) p = pathExists w p := by
  simp [pathExists, getFile_makedirs]

theorem openHdf_makedirs (w : World) (d p : String) :
    openHdf (makedirs w d) p = openHdf w p := by
  simp [openHdf, getFile_makedirs]

theorem pathExists_of_openHdf (w : World) (p : String) (a : HArchive)
    (h : openHdf w p = some a) : pathExists w p = true := by
  unfold openHdf at h
  unfold pathExists
  cases hg : getFile w p with
  | none => rw [hg] at h; exact absurd h (by simp)
  | some e => simp

theorem mem_dirs_makedirs (w : World) (d : String) : d ∈ (makedirs w d).dirs := by
  unfold makedirs
  by_cases h : d ∈ w.dirs <;> simp [h]

theorem setFile_dirs (w : World) (p : String) (e : FileEntry) :
    (setFile w p e).dirs = w.dirs := rfl

theorem removeFile_dirs (w : World) (p : String) :
    (removeFile w p).dirs = w.dirs := rfl

/-! ### Helper lemmas about the per-dataset loop -/

theorem processBody_dirs (cfg : ConvCfg) (w : World) (d : HDataset) (path : String) :
    (processBody cfg w d path).1.dirs = w.dirs := by
  unfold processBody
  split
  · rfl
  · split
    · split <;> simp [setFile_dirs]
    · rfl

theorem processOne_error_dirs {env : Env} {cfg : ConvCfg} {w : World} {d : HDataset}
    {w1 : World} (h : processOne env cfg w d = .error w1) : w1.dirs = w.dirs := by
  unfold processOne at h
  split at h
  · cases h; rfl
  · split at h
    · split at h
      · cases h; rfl
      · simp at h
    · simp at h

theorem processOne_ok_dirs {env : Env} {cfg : ConvCfg} {w : World} {d : HDataset}
    {w1 : World} {o : Option String} (h : processOne env cfg w d = .ok (w1, o)) :
    w1.dirs = w.dirs := by
  unfold processOne at h
  split at h
  · simp at h
  · split at h
    · split at h
      · simp at h
      · injection h with h2
        have hb := congrArg (fun x => x.1.dirs) h2
        simp only [processBody_dirs, removeFile_dirs] at hb
        exact hb.symm
    · injection h with h2
      have hb := congrArg (fun x => x.1.dirs) h2
      simp only [processBody_dirs] at hb
      exact hb.symm

theorem processDatasets_error_dirs {env : Env} {cfg : ConvCfg} :
    ∀ {ds : List HDataset} {w w1 : World},
      processDatasets env cfg w ds = .error w1 → w1.dirs = w.dirs := by
  intro ds
  induction ds with
  | nil => intro w w1 h; simp [processDatasets] at h
  | cons d rest ih =>
    intro w w1 h
    unfold processDatasets at h
    split at h
    · cases h
      exact processOne_error_dirs (by assumption)
    · rename_i w2 o h1
      split at h
      · cases h
        calc w1.dirs = w2.dirs := ih (by assumption)
          _ = w.dirs := processOne_ok_dirs h1
      · simp at h

theorem processDatasets_ok_dirs {env : Env} {cfg : ConvCfg} :
    ∀ {ds : List HDataset} {w w1 : World} {outs : List String},
      processDatasets env cfg w ds = .ok (w1, outs) → w1.dirs = w.dirs := by
  intro ds
  induction ds with
  | nil => intro w w1 outs h; simp [processDatasets] at h; simp [h.1]
  | cons d rest ih =>
    intro w w1 outs h
    unfold processDatasets at h
    split at h
    · simp at h
    · rename_i w2 o h1
      split at h
      · simp at h
      · rename_i w3 outs2 h2
        cases h
        calc w1.dirs = w2.dirs := ih h2
          _ = w.dirs := processOne_ok_dirs h1

/-- The second component of the loop body, written out by cases. -/
theorem processBody_out (cfg : ConvCfg) (w : World) (d : HDataset) (path : String) :
    (processBody cfg w d path).2 =
      if d.readFails then none
      else
        match d.shape, cfg.projInfo with
        | [_, _], some _ => some path
        | _, _ => none := by
  obtain ⟨name, shape, attrs, readFails⟩ := d
  cases readFails with
  | true => simp [processBody]
  | false =>
    cases hp : cfg.projInfo <;>
      rcases shape with _ | ⟨a, _ | ⟨b, _ | ⟨c, t⟩⟩⟩ <;> simp [processBody, hp]

/-- When the loop body reports a created path, it is the output path it was
given. -/
theorem processBody_out_some {cfg : ConvCfg} {w : World} {d : HDataset}
    {path p : String} (h : (processBody cfg w d path).2 = some p) : p = path := by
  rw [processBody_out] at h
  split at h
  · simp at h
  · split at h
    · exact (Option.some.inj h).symm
    · simp at h

/-- With no georeferencing bundle, no iteration of the loop ever reports a
created file. -/
theorem processBody_projNone (cfg : ConvCfg) (w : World) (d : HDataset) (path : String)
    (hp : cfg.projInfo = none) : (processBody cfg w d path).2 = none := by
  rw [processBody_out, hp]
  split
  · rfl
  · split
    · rename_i heq2
      simp at heq2
    · rfl

theorem processOne_projNone_out {env : Env} {cfg : ConvCfg} {w : World} {d : HDataset}
    {w1 : World} {o : Option String} (hp : cfg.projInfo = none)
    (h : processOne env cfg w d = .ok (w1, o)) : o = none := by
  unfold processOne at h
  split at h
  · simp at h
  · split at h
    · split at h
      · simp at h
      · injection h with h2
        have h3 := congrArg Prod.snd h2
        rw [processBody_projNone _ _ _ _ hp] at h3
        exact h3.symm
    · injection h with h2
      have h3 := congrArg Prod.snd h2
      rw [processBody_projNone _ _ _ _ hp] at h3
      exact h3.symm

theorem processDatasets_projNone_outs {env : Env} {cfg : ConvCfg}
    (hp : cfg.projInfo = none) :
    ∀ {ds : List HDataset} {w w1 : World} {outs : List String},
      processDatasets env cfg w ds = .ok (w1, outs) → outs = [] := by
  intro ds
  induction ds with
  | nil =>
    intro w w1 outs h
    unfold processDatasets at h
    injection h with h2
    injection h2 with ha hb
    exact hb.symm
  | cons d rest ih =>
    intro w w1 outs h
    unfold processDatasets at h
    split at h
    · simp at h
    · rename_i w2 o h1
      split at h
      · simp at h
      · rename_i w3 outs2 h2
        injection h with h3
        injection h3 with ha hb
        have ho := processOne_projNone_out hp h1
        have houts := ih h2
        rw [← hb, ho, houts]
        rfl

/-- When a loop iteration reports a created path, it lies under the output
directory. -/
theorem processOne_out_join {env : Env} {cfg : ConvCfg} {w : World} {d : HDataset}
    {w1 : World} {p : String} (h : processOne env cfg w d = .ok (w1, some p)) :
    ∃ n, p = pathJoin cfg.outputDir n := by
  unfold processOne at h
  split at h
  · simp at h
  · rename_i fname hf
    refine ⟨fname, ?_⟩
    split at h
    · split at h
      · simp at h
      · injection h with h2
        exact processBody_out_some (congrArg Prod.snd h2)
    · injection h with h2
      exact processBody_out_some (congrArg Prod.snd h2)

theorem processDatasets_out_join {env : Env} {cfg : ConvCfg} :
    ∀ {ds : List HDataset} {w w1 : World} {outs : List String},
      processDatasets env cfg w ds = .ok (w1, outs) →
      ∀ p ∈ outs, ∃ n, p = pathJoin cfg.outputDir n := by
  intro ds
  induction ds with
  | nil =>
    intro w w1 outs h p hp
    unfold processDatasets at h
    injection h with h2
    injection h2 with ha hb
    rw [← hb] at hp
    simp at hp
  | cons d rest ih =>
    intro w w1 outs h p hp
    unfold processDatasets at h
    split at h
    · simp at h
    · rename_i w2 o h1
      split at h
      · simp at h
      · rename_i w3 outs2 h2
        injection h with h3
        injection h3 with ha hb
        rw [← hb] at hp
        rcases List.mem_append.mp hp with hp1 | hp2
        · cases o with
          | none => simp [Option.toList] at hp1
          | some q =>
            simp [Option.toList] at hp1
            subst hp1
            exact processOne_out_join h1
        · exact ih h2 p hp2

/-- The created path one loop iteration reports for a dataset, as a
function of the dataset and the per-archive constants alone. -/
def datasetOut (cfg : ConvCfg) (d : HDataset) : Option String :=
  match outputFilename cfg.hdfBasename cfg.dateStr d.name with
  | none => none
  | some fname =>
    if d.readFails then none
    else
      match d.shape, cfg.projInfo with
      | [_, _], some _ => some (pathJoin cfg.outputDir fname)
      | _, _ => none

/-- A dataset whose grid is not exactly two-dimensional reports no created
path. -/
theorem datasetOut_rank_ne2 (cfg : ConvCfg) (d : HDataset)
    (h : d.shape.length ≠ 2) : datasetOut cfg d = none := by
  unfold datasetOut
  cases hf : outputFilename cfg.hdfBasename cfg.dateStr d.name with
  | none => rfl
  | some f =>
    by_cases hrf : d.readFails
    · simp [hrf]
    · dsimp only
      rw [if_neg hrf]
      cases hs : d.shape with
      | nil => cases hp : cfg.projInfo <;> rfl
      | cons a tl =>
        cases tl with
        | nil => cases hp : cfg.projInfo <;> rfl
        | cons b tl2 =>
          cases tl2 with
          | nil => exact absurd (by rw [hs]; rfl) h
          | cons c tl3 => cases hp : cfg.projInfo <;> rfl

/-- An archive basename with at least two dot components always yields an
output filename. -/
theorem outputFilename_isSome (base : String) (dateStr : Option String) (name : String)
    (h : 2 ≤ (splitOnDot base.data).length) :
    ∃ f, outputFilename base dateStr name = some f := by
  unfold outputFilename
  cases dateStr with
  | some d => exact ⟨_, rfl⟩
  | none =>
    cases hs : splitOnDot base.data with
    | nil => rw [hs] at h; simp at h
    | cons p0 rest =>
      cases rest with
      | nil => rw [hs] at h; simp at h
      | cons p1 t => exact ⟨_, rfl⟩

/-- With no removal failures and a well-formed basename, one loop iteration
never raises, and what it reports depends only on the dataset and the
per-archive constants. -/
theorem processOne_total (env : Env) (cfg : ConvCfg) (w : World) (d : HDataset)
    (he : env.removeFails = []) (hb : 2 ≤ (splitOnDot cfg.hdfBasename.data).length) :
    ∃ w1, processOne env cfg w d = .ok (w1, datasetOut cfg d) := by
  obtain ⟨f, hf⟩ := outputFilename_isSome cfg.hdfBasename cfg.dateStr d.name hb
  unfold processOne datasetOut
  rw [hf]
  have hout : ∀ w' : World,
      (processBody cfg w' d (pathJoin cfg.outputDir f)).2 =
        (if d.readFails then none
         else
           match d.shape, cfg.projInfo with
           | [_, _], some _ => some (pathJoin cfg.outputDir f)
           | _, _ => none) := fun w' => processBody_out cfg w' d _
  cases hex : pathExists w (pathJoin cfg.outputDir f) with
  | false =>
    simp only [hex, Bool.false_eq_true, if_neg, not_false_eq_true]
    exact ⟨_, by rw [← hout w]⟩
  | true =>
    have hnm : pathJoin cfg.outputDir f ∉ env.removeFails := by rw [he]; simp
    simp only [hex, if_pos, hnm, if_neg, not_false_eq_true]
    exact ⟨_, by rw [← hout (removeFile w (pathJoin cfg.outputDir f))]⟩

/-- With no removal failures and a well-formed basename, the loop never
raises and the created-file list is the pointwise one. -/
theorem processDatasets_total (env : Env) (cfg : ConvCfg)
    (he : env.removeFails = []) (hb : 2 ≤ (splitOnDot cfg.hdfBasename.data).length) :
    ∀ (ds : List HDataset) (w : World),
      ∃ w1, processDatasets env cfg w ds = .ok (w1, ds.filterMap (datasetOut cfg)) := by
  intro ds
  induction ds with
  | nil => intro w; exact ⟨w, rfl⟩
  | cons d rest ih =>
    intro w
    obtain ⟨w1, h1⟩ := processOne_total env cfg w d he hb
    obtain ⟨w2, h2⟩ := ih w1
    refine ⟨w2, ?_⟩
    simp only [processDatasets, h1, h2]
    cases hdo : datasetOut cfg d <;> simp [List.filterMap_cons, hdo, Option.toList]

/-! ### Concrete fixtures -/

/-- A StructMetadata.0 text carrying the corner and dimension values of the
end-to-end example. -/
def modisMetaStr : String :=
  "GROUP=GRID UpperLeftPointMtrs=(-10007554.7,5559752.6) LowerRightMtrs=(-8895604.2,4447802.1) XDim=4800 YDim=4800"

/-- An archive with no global attributes and no datasets. -/
def emptyArch : HArchive := ⟨[], []⟩

/-- The os environment with no removal failures. -/
def env0 : Env := ⟨[]⟩

/-! ### Claim C1 -/

/-- C1 (amended): for every metadata text on which all four patterns match
with captured groups the float constructor accepts and nonzero dimensions,
the Geotransform Builder returns resolution equal to the absolute quotient
of the x extent by xdim, and the geotransform
(upper_left_x, resolution, 0, upper_left_y, 0, -resolution), so entry one
of the geotransform is the resolution and entry five its negation. -/
theorem geotransform_of_matched_and_parsed (meta : List Char)
    (g1 g2 k1 k2 xs ys : List Char) (ulx uly lrx lry : ℚ)
    (e1 : searchCoord ulKey meta = some (g1, g2))
    (e2 : searchCoord lrKey meta = some (k1, k2))
    (e3 : searchDim xKey meta = some xs)
    (e4 : searchDim yKey meta = some ys)
    (p1 : parseFloat g1 = some ulx) (p2 : parseFloat g2 = some uly)
    (p3 : parseFloat k1 = some lrx) (p4 : parseFloat k2 = some lry)
    (hx : digitsToNat xs ≠ 0) (hy : digitsToNat ys ≠ 0) :
    extractProjection meta =
      some { geotransform :=
               (ulx, |(lrx - ulx) / (digitsToNat xs : ℚ)|, 0, uly, 0,
                 -|(lrx - ulx) / (digitsToNat xs : ℚ)|),
             resolution := |(lrx - ulx) / (digitsToNat xs : ℚ)|,
             wkt := sinusoidalWkt } := by
  unfold extractProjection
  rw [e1, e2, e3, e4]
  dsimp only
  rw [p1, p2, p3, p4]
  dsimp only
  rw [if_neg (not_or.mpr ⟨hx, hy⟩)]

/-- C1 witness: on the metadata text of the end-to-end example the builder
produces exactly the geotransform
(-10007554.7, r, 0, 5559752.6, 0, -r) with r = 2223901/9600, and r rounds
to 231.66 at two decimals. -/
theorem geotransform_of_matched_and_parsed_witness :
    extractProjection modisMetaStr.data =
      some { geotransform :=
               (-10007554.7, (2223901 : ℚ) / 9600, 0, 5559752.6, 0,
                 -((2223901 : ℚ) / 9600)),
             resolution := (2223901 : ℚ) / 9600,
             wkt := sinusoidalWkt } ∧
    |(2223901 : ℚ) / 9600 - 231.66| < 1 / 200 := by
  constructor
  · have e1 : searchCoord ulKey modisMetaStr.data =
        some ("-10007554.7".data, "5559752.6".data) := by decide
    have e2 : searchCoord lrKey modisMetaStr.data =
        some ("-8895604.2".data, "4447802.1".data) := by decide
    have e3 : searchDim xKey modisMetaStr.data = some "4800".data := by decide
    have e4 : searchDim yKey modisMetaStr.data = some "4800".data := by decide
    have p1 : parseFloat "-10007554.7".data = some (-10007554.7 : ℚ) := by
      have hr : parseFloat "-10007554.7".data =
          some (-(digitsVal "10007554".data +
            digitsVal "7".data / (10 : ℚ) ^ ("7".data.length))) := rfl
      rw [hr]
      have h1 : digitsToNat "10007554".data = 10007554 := by decide
      have h2 : digitsToNat "7".data = 7 := by decide
      simp only [digitsVal, h1, h2]
      norm_num
    have p2 : parseFloat "5559752.6".data = some (5559752.6 : ℚ) := by
      have hr : parseFloat "5559752.6".data =
          some (digitsVal "5559752".data +
            digitsVal "6".data / (10 : ℚ) ^ ("6".data.length)) := rfl
      rw [hr]
      have h1 : digitsToNat "5559752".data = 5559752 := by decide
      have h2 : digitsToNat "6".data = 6 := by decide
      simp only [digitsVal, h1, h2]
      norm_num
    have p3 : parseFloat "-8895604.2".data = some (-8895604.2 : ℚ) := by
      have hr : parseFloat "-8895604.2".data =
          some (-(digitsVal "8895604".data +
            digitsVal "2".data / (10 : ℚ) ^ ("2".data.length))) := rfl
      rw [hr]
      have h1 : digitsToNat "8895604".data = 8895604 := by decide
      have h2 : digitsToNat "2".data = 2 := by decide
      simp only [digitsVal, h1, h2]
      norm_num
    have p4 : parseFloat "4447802.1".data = some (4447802.1 : ℚ) := by
      have hr : parseFloat "4447802.1".data =
          some (digitsVal "4447802".data +
            digitsVal "1".data / (10 : ℚ) ^ ("1".data.length)) := rfl
      rw [hr]
      have h1 : digitsToNat "4447802".data = 4447802 := by decide
      have h2 : digitsToNat "1".data = 1 := by decide
      simp only [digitsVal, h1, h2]
      norm_num
    refine (geotransform_of_matched_and_parsed modisMetaStr.data
      "-10007554.7".data "5559752.6".data "-8895604.2".data "4447802.1".data
      "4800".data "4800".data
      (-10007554.7) 5559752.6 (-8895604.2) 4447802.1
      e1 e2 e3 e4 p1 p2 p3 p4 (by decide) (by decide)).trans ?_
    have hx : digitsToNat "4800".data = 4800 := by decide
    simp only [hx, ProjInfo.mk.injEq, Prod.mk.injEq, Option.some.inj]
    norm_num
  · rw [abs_sub_lt_iff]
    constructor <;> norm_num

/-- C1 counterexample: a metadata text on which all four patterns match
yet the builder returns no bundle at all, because a captured coordinate
group is not a number. -/
theorem all_patterns_match_yet_no_bundle :
    (searchCoord ulKey "UpperLeftPointMtrs=(a,b)LowerRightMtrs=(c,d)XDim=4YDim=4".data).isSome = true ∧
    (searchCoord lrKey "UpperLeftPointMtrs=(a,b)LowerRightMtrs=(c,d)XDim=4YDim=4".data).isSome = true ∧
    (searchDim xKey "UpperLeftPointMtrs=(a,b)LowerRightMtrs=(c,d)XDim=4YDim=4".data).isSome = true ∧
    (searchDim yKey "UpperLeftPointMtrs=(a,b)LowerRightMtrs=(c,d)XDim=4YDim=4".data).isSome = true ∧
    extractProjection "UpperLeftPointMtrs=(a,b)LowerRightMtrs=(c,d)XDim=4YDim=4".data = none := by
  decide

/-! ### Claim C2 -/

/-- C2: for every archive whose metadata text fails at least one of the
four patterns — including the absent-metadata case, which reads as the
empty string — the Geotransform Builder yields no bundle at all, never a
bundle with default or zero values. -/
theorem missing_pattern_yields_no_bundle (arch : HArchive)
    (h : searchCoord ulKey (structMetaOf arch) = none ∨
         searchCoord lrKey (structMetaOf arch) = none ∨
         searchDim xKey (structMetaOf arch) = none ∨
         searchDim yKey (structMetaOf arch) = none) :
    get_modis_projection_info (some arch) = none := by
  show (extractProjection (structMetaOf arch)) = none
  cases h1 : searchCoord ulKey (structMetaOf arch) <;>
    cases h2 : searchCoord lrKey (structMetaOf arch) <;>
      cases h3 : searchDim xKey (structMetaOf arch) <;>
        cases h4 : searchDim yKey (structMetaOf arch) <;>
          simp_all [extractProjection]

/-- C2 witness: on the archive with no metadata attribute the text is
empty, the first pattern fails, and no bundle is produced. -/
theorem missing_pattern_yields_no_bundle_witness :
    searchCoord ulKey (structMetaOf emptyArch) = none ∧
    get_modis_projection_info (some emptyArch) = none :=
  ⟨by decide, missing_pattern_yields_no_bundle emptyArch (Or.inl (by decide))⟩

/-! ### Claim C5 -/

/-- C5: with no explicit request the Selector picks exactly the available
names containing the NDVI substring; with a request, exactly the
intersection with the available names, in archive order and independent of
the order of the request; and an empty selection makes the conversion
return zero output files through its normal exit, not an error. -/
theorem dataset_selector_spec :
    (∀ (names : List String) (n : String),
        n ∈ selectDatasets names none ↔ n ∈ names ∧ strContains n "NDVI" = true) ∧
    (∀ (names req : List String) (n : String),
        n ∈ selectDatasets names (some req) ↔ n ∈ names ∧ n ∈ req) ∧
    (∀ (names req req' : List String), (∀ x, x ∈ req ↔ x ∈ req') →
        selectDatasets names (some req) = selectDatasets names (some req')) ∧
    (∀ (names : List String) (req : Option (List String)),
        (selectDatasets names req).Sublist names) ∧
    (∀ (env : Env) (w : World) (f : String) (od : Option String)
        (ds : Option (List String)) (arch : HArchive),
        openHdf w f = some arch →
        selectDatasets (arch.datasets.map (·.name)) ds = [] →
        (hdf_to_geotiff_sinusoidal env w f od ds).outputs = [] ∧
        (hdf_to_geotiff_sinusoidal env w f od ds).handle = .closed) := by
  refine ⟨?_, ?_, ?_, ?_, ?_⟩
  · intro names n
    simp [selectDatasets, List.mem_filter, selPred]
  · intro names req n
    simp [selectDatasets, List.mem_filter, selPred]
  · intro names req req' h
    unfold selectDatasets
    apply List.filter_congr
    intro x _
    simp only [selPred]
    exact decide_eq_decide.mpr (h x)
  · intro names req
    exact List.filter_sublist names
  · intro env w f od ds arch ho hsel
    have hsel2 : arch.datasets.filter (fun d => selPred ds d.name) = [] := by
      rw [selectDatasets, List.filter_map, List.map_eq_nil_iff] at hsel
      simpa [Function.comp] using hsel
    have hex : pathExists w f = true := pathExists_of_openHdf w f arch ho
    have ho0 : openHdf (makedirs w (od.getD (dirname f))) f = some arch := by
      rw [openHdf_makedirs]; exact ho
    simp only [hdf_to_geotiff_sinusoidal, hex, if_true, ho0, hsel2, processDatasets]
    exact ⟨trivial, trivial⟩

/-- C5 witness: the Selector instances of the specification, the
order-independence of the requested set, and a conversion with an empty
selection that ends normally with no outputs. -/
theorem dataset_selector_spec_witness :
    selectDatasets ["250m_16_days_NDVI", "250m_16_days_EVI", "250m_16_days_VI_Quality"]
        none = ["250m_16_days_NDVI"] ∧
    selectDatasets ["250m_16_days_NDVI", "250m_16_days_EVI", "250m_16_days_VI_Quality"]
        (some ["NonExistent", "250m_16_days_EVI"]) = ["250m_16_days_EVI"] ∧
    "250m_16_days_EVI" ∈
      selectDatasets ["250m_16_days_NDVI", "250m_16_days_EVI", "250m_16_days_VI_Quality"]
        (some ["NonExistent", "250m_16_days_EVI"]) ∧
    selectDatasets ["250m_16_days_NDVI", "250m_16_days_EVI", "250m_16_days_VI_Quality"]
        (some ["250m_16_days_EVI", "NonExistent"]) =
      selectDatasets ["250m_16_days_NDVI", "250m_16_days_EVI", "250m_16_days_VI_Quality"]
        (some ["NonExistent", "250m_16_days_EVI"]) ∧
    (hdf_to_geotiff_sinusoidal env0
        ⟨[("d/q.hdf", .hdfEntry (some ⟨[], [⟨"Quality", [2, 2], [], false⟩]⟩))], []⟩
        "d/q.hdf" none none).outputs = [] ∧
    (hdf_to_geotiff_sinusoidal env0
        ⟨[("d/q.hdf", .hdfEntry (some ⟨[], [⟨"Quality", [2, 2], [], false⟩]⟩))], []⟩
        "d/q.hdf" none none).handle = .closed := by
  refine ⟨by decide, by decide, ?_, ?_, ?_, ?_⟩
  · exact (dataset_selector_spec.2.1 _ _ _).mpr ⟨by decide, by decide⟩
  · exact dataset_selector_spec.2.2.1 _ _ _
      (fun x => by
        simp only [List.mem_cons, List.not_mem_nil, or_false]
        exact or_comm)
  · exact (dataset_selector_spec.2.2.2.2 env0 _ "d/q.hdf" none none
      ⟨[], [⟨"Quality", [2, 2], [], false⟩]⟩ (by decide) (by decide)).1
  · exact (dataset_selector_spec.2.2.2.2 env0 _ "d/q.hdf" none none
      ⟨[], [⟨"Quality", [2, 2], [], false⟩]⟩ (by decide) (by decide)).2

/-! ### Claim C6 -/

/-- The loop body on a readable two-dimensional dataset with a bundle:
the raster is written at the path and its no-data value follows the
policy. -/
theorem processBody_success (cfg : ConvCfg) (w : World) (d : HDataset) (path : String)
    (pi : ProjInfo) (ySz xSz : Nat)
    (hp : cfg.projInfo = some pi) (hrf : d.readFails = false)
    (hsh : d.shape = [ySz, xSz]) :
    ∃ w1 r, processBody cfg w d path = (w1, some path) ∧
      getFile w1 path = some (.rasterFile r) ∧
      r.noData = noDataFor d.name d.attrs := by
  have hred : processBody cfg w d path =
      (setFile
        (setFile w path (.rasterFile
          { xSize := xSz, ySize := ySz, geotransform := none, projection := none,
            dataWritten := false, noData := none, metadata := [] })) path
        (.rasterFile
          { xSize := xSz, ySize := ySz, geotransform := some pi.geotransform,
            projection := some pi.wkt, dataWritten := true,
            noData := noDataFor d.name d.attrs, metadata := d.attrs }),
       some path) := by
    unfold processBody
    rw [hrf, hsh, hp]
    rfl
  exact ⟨_, _, hred, getFile_setFile_self _ _ _, rfl⟩

/-- C6: for every materialized dataset the no-data value is determined
exactly as: a name containing NDVI or EVI forces the constant -3000
regardless of the attributes; otherwise the first attribute whose lowered
key contains a no-data marker supplies the value, the mapped find covering
the unset case. -/
theorem materializer_no_data_policy (env : Env) (cfg : ConvCfg) (w : World)
    (d : HDataset) (pi : ProjInfo) (ySz xSz : Nat) (fname : String)
    (hp : cfg.projInfo = some pi)
    (hrf : d.readFails = false)
    (hsh : d.shape = [ySz, xSz])
    (hf : outputFilename cfg.hdfBasename cfg.dateStr d.name = some fname)
    (hrm : pathJoin cfg.outputDir fname ∉ env.removeFails) :
    ∃ w1 r, processOne env cfg w d = .ok (w1, some (pathJoin cfg.outputDir fname)) ∧
      getFile w1 (pathJoin cfg.outputDir fname) = some (.rasterFile r) ∧
      ((strContains d.name "NDVI" = true ∨ strContains d.name "EVI" = true) →
        r.noData = some (-3000)) ∧
      (strContains d.name "NDVI" = false → strContains d.name "EVI" = false →
        r.noData = (d.attrs.find? fun kv => noDataKeyHit kv.1).map (·.2)) := by
  have hcases : ∀ r : Raster, r.noData = noDataFor d.name d.attrs →
      ((strContains d.name "NDVI" = true ∨ strContains d.name "EVI" = true) →
        r.noData = some (-3000)) ∧
      (strContains d.name "NDVI" = false → strContains d.name "EVI" = false →
        r.noData = (d.attrs.find? fun kv => noDataKeyHit kv.1).map (·.2)) := by
    intro r hnd
    constructor
    · intro hcase
      rw [hnd]
      unfold noDataFor
      rw [if_pos (Bool.or_eq_true _ _ ▸ hcase)]
    · intro h1 h2
      rw [hnd]
      unfold noDataFor
      rw [if_neg (by simp [h1, h2])]
  unfold processOne
  rw [hf]
  dsimp only
  cases hex : pathExists w (pathJoin cfg.outputDir fname) with
  | false =>
    obtain ⟨w1, r, hbody, hg, hnd⟩ :=
      processBody_success cfg w d (pathJoin cfg.outputDir fname) pi ySz xSz hp hrf hsh
    refine ⟨w1, r, ?_, hg, hcases r hnd⟩
    rw [if_neg Bool.false_ne_true, hbody]
  | true =>
    obtain ⟨w1, r, hbody, hg, hnd⟩ :=
      processBody_success cfg (removeFile w (pathJoin cfg.outputDir fname)) d
        (pathJoin cfg.outputDir fname) pi ySz xSz hp hrf hsh
    refine ⟨w1, r, ?_, hg, hcases r hnd⟩
    rw [if_pos rfl, if_neg hrm, hbody]

/-- C6 witness: a dataset named with the NDVI marker and carrying an
explicit nodata attribute of 5 is still materialized with no-data -3000. -/
theorem materializer_no_data_policy_witness :
    ∃ w1 r,
      processOne env0 ⟨"o", "in.hdf", none, some ⟨(0, 1, 0, 0, 0, -1), 1, sinusoidalWkt⟩⟩
          ⟨[], []⟩ ⟨"250m_16_days_NDVI", [2, 3], [("nodata", 5)], false⟩ =
        .ok (w1, some (pathJoin "o" "in_hdf_250m_16_days_NDVI.tif")) ∧
      getFile w1 (pathJoin "o" "in_hdf_250m_16_days_NDVI.tif") =
        some (.rasterFile r) ∧
      ((strContains "250m_16_days_NDVI" "NDVI" = true ∨
          strContains "250m_16_days_NDVI" "EVI" = true) →
        r.noData = some (-3000)) ∧
      (strContains "250m_16_days_NDVI" "NDVI" = false →
        strContains "250m_16_days_NDVI" "EVI" = false →
        r.noData = (([("nodata", (5 : ℚ))].find? fun kv => noDataKeyHit kv.1).map (·.2))) :=
  materializer_no_data_policy env0
    ⟨"o", "in.hdf", none, some ⟨(0, 1, 0, 0, 0, -1), 1, sinusoidalWkt⟩⟩ ⟨[], []⟩
    ⟨"250m_16_days_NDVI", [2, 3], [("nodata", 5)], false⟩
    ⟨(0, 1, 0, 0, 0, -1), 1, sinusoidalWkt⟩ 2 3 "in_hdf_250m_16_days_NDVI.tif"
    rfl rfl rfl (by decide) (by decide)

/-! ### Claim C7 -/

/-- C7: a selected dataset whose grid rank is not two fails alone: its
iteration reports nothing, and the loop over the remaining datasets of the
archive produces exactly the same created files as if the bad dataset were
absent. -/
theorem rank_mismatch_skips_only_that_dataset (env : Env) (cfg : ConvCfg) (w : World)
    (pre post : List HDataset) (bad : HDataset)
    (he : env.removeFails = []) (hb : 2 ≤ (splitOnDot cfg.hdfBasename.data).length)
    (hr : bad.shape.length ≠ 2) :
    ∃ wb w1 w2 outs,
      processOne env cfg w bad = .ok (wb, none) ∧
      processDatasets env cfg w (pre ++ bad :: post) = .ok (w1, outs) ∧
      processDatasets env cfg w (pre ++ post) = .ok (w2, outs) := by
  obtain ⟨wb, h1⟩ := processOne_total env cfg w bad he hb
  rw [datasetOut_rank_ne2 cfg bad hr] at h1
  obtain ⟨w1, h2⟩ := processDatasets_total env cfg he hb (pre ++ bad :: post) w
  obtain ⟨w2, h3⟩ := processDatasets_total env cfg he hb (pre ++ post) w
  have houts : (pre ++ bad :: post).filterMap (datasetOut cfg) =
      (pre ++ post).filterMap (datasetOut cfg) := by
    rw [List.filterMap_append, List.filterMap_append, List.filterMap_cons,
        datasetOut_rank_ne2 cfg bad hr]
  rw [houts] at h2
  exact ⟨wb, w1, w2, (pre ++ post).filterMap (datasetOut cfg), h1, h2, h3⟩

/-- C7 witness: with a rank-three dataset between two rank-two siblings,
the bad dataset reports nothing and the loop yields the same created files
as without it. -/
theorem rank_mismatch_skips_only_that_dataset_witness :
    ∃ wb w1 w2 outs,
      processOne env0 ⟨"o", "in.hdf", none, none⟩ ⟨[], []⟩
          ⟨"C_NDVI", [2, 2, 2], [], false⟩ = .ok (wb, none) ∧
      processDatasets env0 ⟨"o", "in.hdf", none, none⟩ ⟨[], []⟩
          ([⟨"A_NDVI", [2, 2], [], false⟩] ++ ⟨"C_NDVI", [2, 2, 2], [], false⟩ ::
            [⟨"B_NDVI", [2, 2], [], false⟩]) = .ok (w1, outs) ∧
      processDatasets env0 ⟨"o", "in.hdf", none, none⟩ ⟨[], []⟩
          ([⟨"A_NDVI", [2, 2], [], false⟩] ++ [⟨"B_NDVI", [2, 2], [], false⟩]) =
        .ok (w2, outs) :=
  rank_mismatch_skips_only_that_dataset env0 ⟨"o", "in.hdf", none, none⟩ ⟨[], []⟩
    [⟨"A_NDVI", [2, 2], [], false⟩] [⟨"B_NDVI", [2, 2], [], false⟩]
    ⟨"C_NDVI", [2, 2, 2], [], false⟩ (by decide) (by decide) (by decide)

/-- A loop-body iteration on a grid that is not two-dimensional changes
nothing and reports nothing, whatever the read outcome. -/
theorem processBody_skip_shape (cfg : ConvCfg) (w : World) (d : HDataset) (path : String)
    (hr : d.shape.length ≠ 2) : processBody cfg w d path = (w, none) := by
  unfold processBody
  split
  · rfl
  · split
    · rename_i ySz xSz heq
      exact absurd (by rw [heq]; rfl) hr
    · rfl

/-! ### Claim C3 -/

/-- C3 (amended): when the georeferencing bundle cannot be built the
conversion reports an empty created-file list and the convert surface
raises a single archive-level error — but the conversion does not abort
before touching the filesystem, see the counterexample theorem. -/
theorem georeferencing_unavailable_aborts_with_error (env : Env) (w : World)
    (f od : String) (odp : Option String) (ds : Option (List String)) (arch : HArchive)
    (ho : openHdf w f = some arch)
    (hp : get_modis_projection_info (some arch) = none) :
    (hdf_to_geotiff_sinusoidal env w f odp ds).outputs = [] ∧
    (skill_convert env w f od ds).1 = .error ∧
    (skill_convert env w f od ds).2.2 = [] := by
  have main : ∀ (w' : World) (odp' : Option String), openHdf w' f = some arch →
      (hdf_to_geotiff_sinusoidal env w' f odp' ds).outputs = [] := by
    intro w' odp' ho'
    have hex : pathExists w' f = true := pathExists_of_openHdf w' f arch ho'
    have ho0 : openHdf (makedirs w' (odp'.getD (dirname f))) f = some arch := by
      rw [openHdf_makedirs]; exact ho'
    unfold hdf_to_geotiff_sinusoidal
    rw [if_pos hex]
    dsimp only
    rw [ho0]
    dsimp only
    rw [hp]
    split
    · rfl
    · rename_i w1 outs hres
      exact processDatasets_projNone_outs rfl hres
  have hconv : skill_convert env w f od ds =
      (.error, (hdf_to_geotiff_sinusoidal env (makedirs w od) f (some od) ds).world, []) := by
    have h2 : (hdf_to_geotiff_sinusoidal env (makedirs w od) f (some od) ds).outputs = [] := by
      apply main
      rw [openHdf_makedirs]; exact ho
    unfold skill_convert
    rw [if_pos (pathExists_of_openHdf w f arch ho)]
    dsimp only
    rw [if_pos h2]
  exact ⟨main w odp ho, by rw [hconv], by rw [hconv]⟩

/-- C3 counterexample: an archive that opens but yields no bundle still
gets a raster file allocated on disk for its selected two-dimensional
dataset — the overall result is empty, yet the output path exists
afterwards, so the conversion is not free of partial output. -/
theorem georeferencing_unavailable_creates_stub_file :
    (hdf_to_geotiff_sinusoidal env0
        ⟨[("d/in.hdf", .hdfEntry (some ⟨[], [⟨"V_NDVI", [2, 2], [], false⟩]⟩))], ["d"]⟩
        "d/in.hdf" (some "d") none).outputs = [] ∧
    pathExists (hdf_to_geotiff_sinusoidal env0
        ⟨[("d/in.hdf", .hdfEntry (some ⟨[], [⟨"V_NDVI", [2, 2], [], false⟩]⟩))], ["d"]⟩
        "d/in.hdf" (some "d") none).world "d/in_hdf_V_NDVI.tif" = true := by
  decide

/-- C3 witness: applying the archive-level theorem to the concrete stub
world discharges its hypotheses. -/
theorem georeferencing_unavailable_aborts_with_error_witness :
    (hdf_to_geotiff_sinusoidal env0
        ⟨[("e/in.hdf", .hdfEntry (some ⟨[], [⟨"W_NDVI", [2, 2], [], false⟩]⟩))], []⟩
        "e/in.hdf" none none).outputs = [] ∧
    (skill_convert env0
        ⟨[("e/in.hdf", .hdfEntry (some ⟨[], [⟨"W_NDVI", [2, 2], [], false⟩]⟩))], []⟩
        "e/in.hdf" "e" none).1 = .error ∧
    (skill_convert env0
        ⟨[("e/in.hdf", .hdfEntry (some ⟨[], [⟨"W_NDVI", [2, 2], [], false⟩]⟩))], []⟩
        "e/in.hdf" "e" none).2.2 = [] :=
  georeferencing_unavailable_aborts_with_error env0 _ "e/in.hdf" "e" none none
    ⟨[], [⟨"W_NDVI", [2, 2], [], false⟩]⟩ (by decide) (by decide)

/-! ### Claim C4 -/

/-- C4 (amended): the unconditional removal of an existing file at the
output path happens before the shape validation, so a selected dataset of
the wrong rank is skipped with no output, but a pre-existing file at its
output path has already been removed rather than left untouched. -/
theorem removal_precedes_shape_validation (env : Env) (w : World) (f : String)
    (odp : Option String) (ds : Option (List String)) (arch : HArchive) (d : HDataset)
    (fname : String)
    (ho : openHdf w f = some arch)
    (hd : arch.datasets = [d])
    (hs : selPred ds d.name = true)
    (hr : d.shape.length ≠ 2)
    (hf : outputFilename (baseName f) (parse_modis_date (baseName f)) d.name = some fname)
    (hx : pathExists w (pathJoin (odp.getD (dirname f)) fname) = true)
    (hrm : pathJoin (odp.getD (dirname f)) fname ∉ env.removeFails) :
    (hdf_to_geotiff_sinusoidal env w f odp ds).outputs = [] ∧
    pathExists (hdf_to_geotiff_sinusoidal env w f odp ds).world
      (pathJoin (odp.getD (dirname f)) fname) = false := by
  have hex0 : pathExists w f = true := pathExists_of_openHdf w f arch ho
  have ho0 : openHdf (makedirs w (odp.getD (dirname f))) f = some arch := by
    rw [openHdf_makedirs]; exact ho
  have hx0 : pathExists (makedirs w (odp.getD (dirname f)))
      (pathJoin (odp.getD (dirname f)) fname) = true := by
    rw [pathExists_makedirs]; exact hx
  have hone : processOne env
      ⟨odp.getD (dirname f), baseName f, parse_modis_date (baseName f),
        get_modis_projection_info (some arch)⟩
      (makedirs w (odp.getD (dirname f))) d =
      .ok (removeFile (makedirs w (odp.getD (dirname f)))
            (pathJoin (odp.getD (dirname f)) fname), none) := by
    unfold processOne
    dsimp only
    rw [hf]
    dsimp only
    rw [if_pos hx0, if_neg hrm, processBody_skip_shape _ _ _ _ hr]
  have hrun : hdf_to_geotiff_sinusoidal env w f odp ds =
      { world := removeFile (makedirs w (odp.getD (dirname f)))
          (pathJoin (odp.getD (dirname f)) fname),
        outputs := [], handle := .closed } := by
    unfold hdf_to_geotiff_sinusoidal
    rw [if_pos hex0]
    dsimp only
    rw [ho0]
    dsimp only
    rw [hd]
    rw [show List.filter (fun d' => selPred ds d'.name) [d] = [d] from by
      rw [List.filter_cons]; simp [hs]]
    unfold processDatasets
    rw [hone]
    rfl
  rw [hrun]
  exact ⟨rfl, pathExists_removeFile_self _ _⟩

/-- C4 counterexample: a rank-one selected dataset with a pre-existing
file at its output path: the dataset is skipped with no outputs, yet the
pre-existing file is gone afterwards. -/
theorem preexisting_output_removed_for_bad_rank :
    (hdf_to_geotiff_sinusoidal env0
        ⟨[("d/in.hdf", .hdfEntry (some ⟨[], [⟨"BAD", [5], [], false⟩]⟩)),
          ("d/in_hdf_BAD.tif", .plainFile)], ["d"]⟩
        "d/in.hdf" (some "d") (some ["BAD"])).outputs = [] ∧
    pathExists (hdf_to_geotiff_sinusoidal env0
        ⟨[("d/in.hdf", .hdfEntry (some ⟨[], [⟨"BAD", [5], [], false⟩]⟩)),
          ("d/in_hdf_BAD.tif", .plainFile)], ["d"]⟩
        "d/in.hdf" (some "d") (some ["BAD"])).world "d/in_hdf_BAD.tif" = false := by
  decide

/-- C4 witness: the amended theorem applied to the concrete rank-one
dataset world. -/
theorem removal_precedes_shape_validation_witness :
    (hdf_to_geotiff_sinusoidal env0
        ⟨[("g/in.hdf", .hdfEntry (some ⟨[], [⟨"CAD", [5], [], false⟩]⟩)),
          ("g/in_hdf_CAD.tif", .plainFile)], []⟩
        "g/in.hdf" none (some ["CAD"])).outputs = [] ∧
    pathExists (hdf_to_geotiff_sinusoidal env0
        ⟨[("g/in.hdf", .hdfEntry (some ⟨[], [⟨"CAD", [5], [], false⟩]⟩)),
          ("g/in_hdf_CAD.tif", .plainFile)], []⟩
        "g/in.hdf" none (some ["CAD"])).world
      (pathJoin ((none : Option String).getD (dirname "g/in.hdf")) "in_hdf_CAD.tif") = false :=
  (removal_precedes_shape_validation env0 _ "g/in.hdf" none (some ["CAD"])
    ⟨[], [⟨"CAD", [5], [], false⟩]⟩ ⟨"CAD", [5], [], false⟩ "in_hdf_CAD.tif"
    (by decide) (by decide) (by decide) (by decide) (by decide) (by decide)
    (by decide)).imp id (fun h => h)

/-! ### Claim C8 -/

/-- C8 (amended): a missing input path surfaces as an error on both
command surfaces with no output; but when the path exists and opening the
archive fails, only convert reports an error — analyze returns the success
status with a default-valued report. -/
theorem open_failure_statuses (env : Env) (w : World) (p od : String)
    (ds : Option (List String)) :
    (pathExists w p = false →
      (skill_analyze w p).1 = .error ∧
      (skill_convert env w p od ds).1 = .error ∧
      (skill_convert env w p od ds).2.2 = []) ∧
    (pathExists w p = true → openHdf w p = none →
      (skill_analyze w p).1 = .success ∧
      (skill_convert env w p od ds).1 = .error ∧
      (skill_convert env w p od ds).2.2 = [] ∧
      (skill_convert env w p od ds).2.1.files = w.files) := by
  constructor
  · intro hex
    have hne : ¬ pathExists w p = true := by rw [hex]; exact Bool.false_ne_true
    refine ⟨?_, ?_, ?_⟩
    · unfold skill_analyze
      rw [if_neg hne]
    · unfold skill_convert
      rw [if_neg hne]
    · unfold skill_convert
      rw [if_neg hne]
  · intro hex ho
    have hex2 : pathExists (makedirs w od) p = true := by
      rw [pathExists_makedirs]; exact hex
    have ho2 : openHdf (makedirs (makedirs w od) od) p = none := by
      rw [openHdf_makedirs, openHdf_makedirs]; exact ho
    have hmain : hdf_to_geotiff_sinusoidal env (makedirs w od) p (some od) ds =
        { world := makedirs (makedirs w od) od, outputs := [],
          handle := .notOpened } := by
      unfold hdf_to_geotiff_sinusoidal
      rw [if_pos hex2]
      dsimp only [Option.getD]
      rw [ho2]
    have hconv : skill_convert env w p od ds =
        (.error, makedirs (makedirs w od) od, []) := by
      unfold skill_convert
      rw [if_pos hex]
      dsimp only
      rw [hmain]
      rfl
    refine ⟨?_, ?_, ?_, ?_⟩
    · unfold skill_analyze
      rw [if_pos hex]
    · rw [hconv]
    · rw [hconv]
    · rw [hconv]
      simp [makedirs_files]

/-- C8 counterexample: a path that exists but fails to open — the analyze
surface reports success, not error. -/
theorem analyze_open_failure_reports_success :
    (skill_analyze ⟨[("x.hdf", .hdfEntry none)], []⟩ "x.hdf").1 = .success := by
  decide

/-- C8 witness: both branches of the amended statement at concrete
worlds. -/
theorem open_failure_statuses_witness :
    (skill_analyze ⟨[("x.hdf", .hdfEntry none)], []⟩ "y.hdf").1 = .error ∧
    (skill_analyze ⟨[("x.hdf", .hdfEntry none)], []⟩ "x.hdf").1 = .success ∧
    (skill_convert env0 ⟨[("x.hdf", .hdfEntry none)], []⟩ "x.hdf" "o" none).1 = .error ∧
    (skill_convert env0 ⟨[("x.hdf", .hdfEntry none)], []⟩ "x.hdf" "o" none).2.2 = [] :=
  ⟨((open_failure_statuses env0 ⟨[("x.hdf", .hdfEntry none)], []⟩ "y.hdf" "o" none).1
      (by decide)).1,
   ((open_failure_statuses env0 ⟨[("x.hdf", .hdfEntry none)], []⟩ "x.hdf" "o" none).2
      (by decide) (by decide)).1,
   ((open_failure_statuses env0 ⟨[("x.hdf", .hdfEntry none)], []⟩ "x.hdf" "o" none).2
      (by decide) (by decide)).2.1,
   ((open_failure_statuses env0 ⟨[("x.hdf", .hdfEntry none)], []⟩ "x.hdf" "o" none).2
      (by decide) (by decide)).2.2.1⟩

/-! ### Claim C9 -/

/-- C9: the archive handle is not released on every path — when removing a
pre-existing output file raises (the removal runs outside the per-dataset
handler), the outer handler returns the empty list without closing the
handle opened at the start of the conversion. -/
theorem handle_leaked_on_remove_failure :
    (hdf_to_geotiff_sinusoidal ⟨["d/in_hdf_V_NDVI.tif"]⟩
        ⟨[("d/in.hdf", .hdfEntry (some ⟨[], [⟨"V_NDVI", [2, 2], [], false⟩]⟩)),
          ("d/in_hdf_V_NDVI.tif", .plainFile)], ["d"]⟩
        "d/in.hdf" (some "d") none).handle = .leaked ∧
    (hdf_to_geotiff_sinusoidal ⟨["d/in_hdf_V_NDVI.tif"]⟩
        ⟨[("d/in.hdf", .hdfEntry (some ⟨[], [⟨"V_NDVI", [2, 2], [], false⟩]⟩)),
          ("d/in_hdf_V_NDVI.tif", .plainFile)], ["d"]⟩
        "d/in.hdf" (some "d") none).outputs = [] := by
  decide

/-! ### Claim C10 -/

/-- C10: omitting the output directory makes the conversion primitive and
the request dispatcher behave exactly as if the directory of the input
archive had been passed; that directory is recorded as created whenever
the input exists, and every produced raster path lies under it. -/
theorem default_output_dir (env : Env) (w : World) (f : String)
    (ds : Option (List String)) :
    hdf_to_geotiff_sinusoidal env w f none ds =
      hdf_to_geotiff_sinusoidal env w f (some (dirname f)) ds ∧
    handle_hdf_to_geotiff_conversion env w ⟨some f, none, ds, false⟩ =
      handle_hdf_to_geotiff_conversion env w ⟨some f, some (dirname f), ds, false⟩ ∧
    (pathExists w f = true →
      dirname f ∈ (hdf_to_geotiff_sinusoidal env w f none ds).world.dirs) ∧
    (∀ p ∈ (hdf_to_geotiff_sinusoidal env w f none ds).outputs,
      ∃ n, p = pathJoin (dirname f) n) := by
  refine ⟨rfl, ?_, ?_, ?_⟩
  · unfold handle_hdf_to_geotiff_conversion
    dsimp only
    rw [ite_self]
  · intro hex
    unfold hdf_to_geotiff_sinusoidal
    rw [if_pos hex]
    dsimp only
    split
    · exact mem_dirs_makedirs w (dirname f)
    · split
      · rename_i w1 hres
        have hd : w1.dirs = (makedirs w (dirname f)).dirs :=
          processDatasets_error_dirs hres
        show dirname f ∈ w1.dirs
        rw [hd]
        exact mem_dirs_makedirs w (dirname f)
      · rename_i w1 outs hres
        have hd : w1.dirs = (makedirs w (dirname f)).dirs :=
          processDatasets_ok_dirs hres
        show dirname f ∈ w1.dirs
        rw [hd]
        exact mem_dirs_makedirs w (dirname f)
  · intro p hp
    unfold hdf_to_geotiff_sinusoidal at hp
    by_cases hex : pathExists w f = true
    · rw [if_pos hex] at hp
      dsimp only at hp
      split at hp
      · simp at hp
      · split at hp
        · simp at hp
        · rename_i w1 outs hres
          exact processDatasets_out_join hres p hp
    · rw [if_neg hex] at hp
      simp at hp

/-- C10 witness: a successful conversion of an archive under directory d
with the output directory omitted creates directory d and writes its one
raster under d. -/
theorem default_output_dir_witness :
    dirname "d/a.hdf" ∈ (hdf_to_geotiff_sinusoidal env0
        ⟨[("d/a.hdf", .hdfEntry (some ⟨[("StructMetadata.0", modisMetaStr)],
            [⟨"V_NDVI", [3, 4], [], false⟩]⟩))], []⟩
        "d/a.hdf" none none).world.dirs ∧
    (∃ n, "d/a_hdf_V_NDVI.tif" = pathJoin (dirname "d/a.hdf") n) :=
  ⟨(default_output_dir env0
      ⟨[("d/a.hdf", .hdfEntry (some ⟨[("StructMetadata.0", modisMetaStr)],
          [⟨"V_NDVI", [3, 4], [], false⟩]⟩))], []⟩
      "d/a.hdf" none).2.2.1 (by decide),
   (default_output_dir env0
      ⟨[("d/a.hdf", .hdfEntry (some ⟨[("StructMetadata.0", modisMetaStr)],
          [⟨"V_NDVI", [3, 4], [], false⟩]⟩))], []⟩
      "d/a.hdf" none).2.2.2 "d/a_hdf_V_NDVI.tif" (by decide)⟩

end HdfGeotiff
